import Mathlib

/-!
Verification of `struct.py`, a scaffold builder that walks a hard-coded
nested description of a directory tree and creates, for each node, a
directory (`Path.mkdir(exist_ok=True)`) or an empty file (`Path.touch()`)
under a base path, printing one progress line per operation.

The filesystem is modelled as an association list from paths (lists of
name components) to entries (directory, or file with its byte content).
`mkdir` and `touch` follow the semantics of the `pathlib` calls used by
the source: `mkdir(exist_ok=True)` succeeds on an existing directory,
raises `FileExistsError` on an existing file, and requires the parent to
exist; `touch()` succeeds on any existing entry (including a directory,
where it merely updates the timestamp) and otherwise creates an empty
file under an existing parent directory.

The Python value space that drives the walk (`None` / `dict` / `list`,
plus unrecognized scalars that the `if`/`elif` chain silently skips) is
embedded as the mutual inductives `PyValue` / `PyDict`.
-/

namespace Gymgee

/-- A filesystem path, as its list of name components. -/
abbrev FsPath := List String

/-- A filesystem entry: a directory, or a file with its byte content. -/
inductive Entry where
  | dir
  | file (content : String)
deriving DecidableEq

/-- Errors raised by the modelled filesystem calls. -/
inductive FSError where
  | fileExists
  | fileNotFound
  | notADirectory
deriving DecidableEq

/-- The filesystem: an association list from paths to entries.
Operations only ever add bindings for paths that are absent. -/
abbrev FS := List (FsPath × Entry)

/-- Look up the entry at a path. -/
def FS.find : FS → FsPath → Option Entry
  | [], _ => none
  | (q, e) :: rest, p => if q = p then some e else FS.find rest p

/-- `Path.mkdir(exist_ok=True)`: succeed without change on an existing
directory, raise `FileExistsError` on an existing file, and otherwise
create the directory provided the parent exists and is a directory. -/
def mkdir (fs : FS) (p : FsPath) : Except FSError FS :=
  match fs.find p with
  | some .dir => .ok fs
  | some (.file _) => .error .fileExists
  | none =>
    match fs.find p.dropLast with
    | some .dir => .ok ((p, .dir) :: fs)
    | some (.file _) => .error .notADirectory
    | none => .error .fileNotFound

/-- `Path.touch()`: succeed without change on any existing entry (for an
existing path, `os.utime` succeeds, also on a directory), and otherwise
create an empty file provided the parent exists and is a directory. -/
def touch (fs : FS) (p : FsPath) : Except FSError FS :=
  match fs.find p with
  | some _ => .ok fs
  | none =>
    match fs.find p.dropLast with
    | some .dir => .ok ((p, .file "") :: fs)
    | some (.file _) => .error .notADirectory
    | none => .error .fileNotFound

/-- A creation notice printed by the walk. -/
inductive Event where
  | mkDir (p : FsPath)
  | mkFile (p : FsPath)
deriving DecidableEq

/-- The path a creation notice talks about. -/
def Event.path : Event → FsPath
  | .mkDir p => p
  | .mkFile p => p

/-- Render a path the way Python's `str(Path(...))` joins components. -/
def pathStr (p : FsPath) : String :=
  String.intercalate "/" p

/-- The progress line printed for a creation notice. -/
def Event.render : Event → String
  | .mkDir p => "Created directory: " ++ pathStr p
  | .mkFile p => "Created file: " ++ pathStr p

mutual
/-- A Python value appearing in the description: `None` (file marker), a
nested dict, a list of file names, or an unrecognized scalar (a string
or a number) that the dispatch chain silently skips. -/
inductive PyValue where
  | none
  | dict (entries : PyDict)
  | list (names : List String)
  | str (s : String)
  | int (n : Int)

/-- A Python dict, as its key/value pairs in insertion order. -/
inductive PyDict where
  | nil
  | cons (name : String) (content : PyValue) (rest : PyDict)
end

/-- Build a `PyDict` from a list literal of key/value pairs. -/
def PyDict.ofList : List (String × PyValue) → PyDict
  | [] => .nil
  | (name, v) :: rest => .cons name v (PyDict.ofList rest)

/-- A dict-valued entry, written from a list literal. -/
def dictOf (l : List (String × PyValue)) : PyValue :=
  .dict (PyDict.ofList l)

/-- Concatenation of two dicts (the second's items after the first's). -/
def PyDict.append : PyDict → PyDict → PyDict
  | .nil, d2 => d2
  | .cons name v rest, d2 => .cons name v (PyDict.append rest d2)

/-- The inner `for file_name in content:` loop: touch each listed file
under the directory, printing one line per file; an error aborts it. -/
def touchFiles (fs : FS) (dir : FsPath) : List String → FS × List Event × Option FSError
  | [] => (fs, [], none)
  | f :: rest =>
    match touch fs (dir ++ [f]) with
    | .error e => (fs, [], some e)
    | .ok fs1 =>
      let r := touchFiles fs1 dir rest
      (r.1, .mkFile (dir ++ [f]) :: r.2.1, r.2.2)

/-- The walk of `create_structure(base_path, structure)`: for each
`(name, content)` item in order, dispatch on the value's type; `None`
touches a file, a dict makes the directory and recurses, a list makes
the directory and touches each listed file; any other value is skipped.
An uncaught error aborts the whole walk, keeping the state and the
output produced so far. -/
def create_structure (fs : FS) (base : FsPath) : PyDict → FS × List Event × Option FSError
  | .nil => (fs, [], none)
  | .cons name content rest =>
    match content with
    | .none =>
      match touch fs (base ++ [name]) with
      | .error e => (fs, [], some e)
      | .ok fs1 =>
        let r := create_structure fs1 base rest
        (r.1, .mkFile (base ++ [name]) :: r.2.1, r.2.2)
    | .dict entries =>
      match mkdir fs (base ++ [name]) with
      | .error e => (fs, [], some e)
      | .ok fs1 =>
        let rc := create_structure fs1 (base ++ [name]) entries
        match rc.2.2 with
        | some e => (rc.1, .mkDir (base ++ [name]) :: rc.2.1, some e)
        | none =>
          let r := create_structure rc.1 base rest
          (r.1, .mkDir (base ++ [name]) :: (rc.2.1 ++ r.2.1), r.2.2)
    | .list names =>
      match mkdir fs (base ++ [name]) with
      | .error e => (fs, [], some e)
      | .ok fs1 =>
        let rf := touchFiles fs1 (base ++ [name]) names
        match rf.2.2 with
        | some e => (rf.1, .mkDir (base ++ [name]) :: rf.2.1, some e)
        | none =>
          let r := create_structure rf.1 base rest
          (r.1, .mkDir (base ++ [name]) :: (rf.2.1 ++ r.2.1), r.2.2)
    | .str _ => create_structure fs base rest
    | .int _ => create_structure fs base rest

/-- The hard-coded description of the directory structure. -/
def «structure» : PyDict := PyDict.ofList [
  ("lib", dictOf [
    ("core", dictOf [
      ("constants", .list [
        "app_constants.dart",
        "app_strings.dart",
        "app_theme.dart"
      ]),
      ("errors", .list [
        "exceptions.dart",
        "failures.dart"
      ]),
      ("network", .list [
        "network_info.dart",
        "api_client.dart"
      ]),
      ("utils", .list [
        "date_formatter.dart",
        "validators.dart",
        "analytics_helper.dart"
      ]),
      ("widgets", dictOf [
        ("buttons", .list []),
        ("cards", .list []),
        ("dialogs", .list []),
        ("loaders", .list [])
      ])
    ]),
    ("data", dictOf [
      ("datasources", dictOf [
        ("local", .list [
          "app_database.dart",
          "workout_local_datasource.dart",
          "user_local_datasource.dart"
        ]),
        ("remote", .list [
          "workout_remote_datasource.dart",
          "user_remote_datasource.dart"
        ])
      ]),
      ("models", .list [
        "exercise_model.dart",
        "workout_model.dart",
        "workout_log_model.dart",
        "user_model.dart",
        "personal_record_model.dart"
      ]),
      ("repositories", .list [
        "workout_repository_impl.dart",
        "exercise_repository_impl.dart",
        "user_repository_impl.dart"
      ])
    ]),
    ("domain", dictOf [
      ("entities", .list [
        "exercise.dart",
        "workout.dart",
        "workout_log.dart",
        "user.dart",
        "personal_record.dart"
      ]),
      ("repositories", .list [
        "workout_repository.dart",
        "exercise_repository.dart",
        "user_repository.dart"
      ]),
      ("usecases", dictOf [
        ("workout", .list [
          "get_workout_history.dart",
          "log_workout.dart",
          "get_personal_records.dart"
        ]),
        ("user", .list [
          "get_user.dart",
          "update_user.dart"
        ])
      ])
    ]),
    ("presentation", dictOf [
      ("bloc", dictOf [
        ("workout", .list [
          "workout_bloc.dart",
          "workout_event.dart",
          "workout_state.dart"
        ]),
        ("exercise", .list [
          "exercise_bloc.dart",
          "exercise_event.dart",
          "exercise_state.dart"
        ]),
        ("timer", .list [
          "timer_bloc.dart",
          "timer_event.dart",
          "timer_state.dart"
        ])
      ]),
      ("pages", dictOf [
        ("home", dictOf [
          ("home_page.dart", .none),
          ("widgets", .list [])
        ]),
        ("workout", dictOf [
          ("workout_list_page.dart", .none),
          ("workout_detail_page.dart", .none),
          ("workout_in_progress_page.dart", .none),
          ("widgets", .list [])
        ]),
        ("stats", dictOf [
          ("stats_dashboard_page.dart", .none),
          ("widgets", .list [])
        ]),
        ("history", dictOf [
          ("workout_history_page.dart", .none),
          ("widgets", .list [])
        ]),
        ("profile", dictOf [
          ("profile_page.dart", .none),
          ("widgets", .list [])
        ])
      ]),
      ("widgets", .list [
        "exercise_card.dart",
        "workout_timer.dart",
        "set_tracker.dart",
        "progress_chart.dart"
      ])
    ]),
    ("config", dictOf [
      ("routes", .list [
        "app_router.dart",
        "route_names.dart"
      ]),
      ("injection", .list [
        "dependency_injection.dart"
      ])
    ]),
    ("app.dart", .none),
    ("main.dart", .none)
  ])
]

/-- The completion message printed once the whole walk has finished. -/
def completionMsg : String := "\nDirectory structure created successfully!"

/-- The script body applied to a description: run the walk from the
current working directory, printing one line per operation, and print
the completion message only when no exception aborted the walk. -/
def runScript (desc : PyDict) (fs : FS) (cwd : FsPath) :
    FS × List String × Option FSError :=
  let r := create_structure fs cwd desc
  match r.2.2 with
  | some e => (r.1, r.2.1.map Event.render, some e)
  | none => (r.1, r.2.1.map Event.render ++ [completionMsg], none)

/-- The whole program: the script body applied to the hard-coded
description. -/
def runProgram (fs : FS) (cwd : FsPath) : FS × List String × Option FSError :=
  runScript «structure» fs cwd

/-- A target root holding nothing but the (empty, writable) root
directory itself. -/
def emptyRoot (cwd : FsPath) : FS := [(cwd, .dir)]

/-- The paths the description declares as directories (dict-valued and
list-valued entries), relative to a base path. -/
def dirPaths (base : FsPath) : PyDict → List FsPath
  | .nil => []
  | .cons name content rest =>
    match content with
    | .dict entries =>
      (base ++ [name]) :: (dirPaths (base ++ [name]) entries ++ dirPaths base rest)
    | .list _ => (base ++ [name]) :: dirPaths base rest
    | _ => dirPaths base rest

/-- The paths the description declares as files (None-valued entries and
every name in a list), relative to a base path. -/
def filePaths (base : FsPath) : PyDict → List FsPath
  | .nil => []
  | .cons name content rest =>
    match content with
    | .none => (base ++ [name]) :: filePaths base rest
    | .dict entries => filePaths (base ++ [name]) entries ++ filePaths base rest
    | .list names =>
      names.map (fun f => (base ++ [name]) ++ [f]) ++ filePaths base rest
    | _ => filePaths base rest

/-- `g` holds every binding `fs` holds (the walk only ever extends the
filesystem this way). -/
def FS.Extends (g fs : FS) : Prop :=
  ∀ p e, FS.find fs p = some e → FS.find g p = some e

/-! ### Basic lemmas about the filesystem primitives -/

theorem touch_ok_of_find_some {fs : FS} {p : FsPath} {e : Entry}
    (h : fs.find p = some e) : touch fs p = .ok fs := by
  simp [touch, h]

theorem mkdir_ok_of_find_dir {fs : FS} {p : FsPath}
    (h : fs.find p = some .dir) : mkdir fs p = .ok fs := by
  simp [mkdir, h]

theorem mkdir_error_of_find_file {fs : FS} {p : FsPath} {c : String}
    (h : fs.find p = some (.file c)) : mkdir fs p = .error .fileExists := by
  simp [mkdir, h]

theorem mkdir_ok_find_dir {fs fs1 : FS} {p : FsPath}
    (h : mkdir fs p = .ok fs1) : fs1.find p = some .dir := by
  unfold mkdir at h
  cases hf : fs.find p with
  | some e =>
    cases e with
    | dir => rw [hf] at h; cases h; exact hf
    | file c => rw [hf] at h; cases h
  | none =>
    rw [hf] at h
    cases hp : fs.find p.dropLast with
    | some e =>
      cases e with
      | dir => rw [hp] at h; cases h; simp [FS.find]
      | file c => rw [hp] at h; cases h
    | none => rw [hp] at h; cases h

theorem touch_ok_find_some {fs fs1 : FS} {p : FsPath}
    (h : touch fs p = .ok fs1) : ∃ e, fs1.find p = some e := by
  unfold touch at h
  cases hf : fs.find p with
  | some e => rw [hf] at h; cases h; exact ⟨e, hf⟩
  | none =>
    rw [hf] at h
    cases hp : fs.find p.dropLast with
    | some e =>
      cases e with
      | dir => rw [hp] at h; cases h; exact ⟨.file "", by simp [FS.find]⟩
      | file c => rw [hp] at h; cases h
    | none => rw [hp] at h; cases h

theorem touch_ok_fresh {fs fs1 : FS} {p : FsPath}
    (h : touch fs p = .ok fs1) (hn : fs.find p = none) :
    fs1.find p = some (.file "") := by
  unfold touch at h
  rw [hn] at h
  cases hp : fs.find p.dropLast with
  | some e =>
    cases e with
    | dir => rw [hp] at h; cases h; simp [FS.find]
    | file c => rw [hp] at h; cases h
  | none => rw [hp] at h; cases h

theorem touch_find_mono {fs fs1 : FS} {q p : FsPath} {e : Entry}
    (h : touch fs q = .ok fs1) (hf : fs.find p = some e) : fs1.find p = some e := by
  unfold touch at h
  cases hq : fs.find q with
  | some e' => rw [hq] at h; cases h; exact hf
  | none =>
    rw [hq] at h
    cases hp : fs.find q.dropLast with
    | some e' =>
      cases e' with
      | dir =>
        rw [hp] at h
        cases h
        have hne : q ≠ p := fun hqp => by rw [hqp, hf] at hq; cases hq
        simp [FS.find, hne, hf]
      | file c => rw [hp] at h; cases h
    | none => rw [hp] at h; cases h

theorem mkdir_find_mono {fs fs1 : FS} {q p : FsPath} {e : Entry}
    (h : mkdir fs q = .ok fs1) (hf : fs.find p = some e) : fs1.find p = some e := by
  unfold mkdir at h
  cases hq : fs.find q with
  | some e' =>
    cases e' with
    | dir => rw [hq] at h; cases h; exact hf
    | file c => rw [hq] at h; cases h
  | none =>
    rw [hq] at h
    cases hp : fs.find q.dropLast with
    | some e' =>
      cases e' with
      | dir =>
        rw [hp] at h
        cases h
        have hne : q ≠ p := fun hqp => by rw [hqp, hf] at hq; cases hq
        simp [FS.find, hne, hf]
      | file c => rw [hp] at h; cases h
    | none => rw [hp] at h; cases h

theorem touch_new {fs fs1 : FS} {q p : FsPath}
    (h : touch fs q = .ok fs1) (hn : fs.find p = none) :
    fs1.find p = none ∨ (p = q ∧ fs1.find p = some (.file "")) := by
  unfold touch at h
  cases hq : fs.find q with
  | some e' => rw [hq] at h; cases h; exact .inl hn
  | none =>
    rw [hq] at h
    cases hp : fs.find q.dropLast with
    | some e' =>
      cases e' with
      | dir =>
        rw [hp] at h
        cases h
        by_cases hqp : q = p
        · subst hqp; exact .inr ⟨rfl, by simp [FS.find]⟩
        · exact .inl (by simp [FS.find, hqp, hn])
      | file c => rw [hp] at h; cases h
    | none => rw [hp] at h; cases h

theorem mkdir_new {fs fs1 : FS} {q p : FsPath}
    (h : mkdir fs q = .ok fs1) (hn : fs.find p = none) :
    fs1.find p = none ∨ (p = q ∧ fs1.find p = some .dir) := by
  unfold mkdir at h
  cases hq : fs.find q with
  | some e' =>
    cases e' with
    | dir => rw [hq] at h; cases h; exact .inl hn
    | file c => rw [hq] at h; cases h
  | none =>
    rw [hq] at h
    cases hp : fs.find q.dropLast with
    | some e' =>
      cases e' with
      | dir =>
        rw [hp] at h
        cases h
        by_cases hqp : q = p
        · subst hqp; exact .inr ⟨rfl, by simp [FS.find]⟩
        · exact .inl (by simp [FS.find, hqp, hn])
      | file c => rw [hp] at h; cases h
    | none => rw [hp] at h; cases h

/-! ### Branch equations for the walk -/

theorem touchFiles_nil {fs : FS} {dir : FsPath} :
    touchFiles fs dir [] = (fs, [], none) := rfl

theorem touchFiles_cons_ok {fs fs1 : FS} {dir : FsPath} {f : String}
    {rest : List String} (h : touch fs (dir ++ [f]) = .ok fs1) :
    touchFiles fs dir (f :: rest)
      = ((touchFiles fs1 dir rest).1,
         .mkFile (dir ++ [f]) :: (touchFiles fs1 dir rest).2.1,
         (touchFiles fs1 dir rest).2.2) := by
  simp [touchFiles, h]

theorem touchFiles_cons_err {fs : FS} {dir : FsPath} {f : String}
    {rest : List String} {e : FSError} (h : touch fs (dir ++ [f]) = .error e) :
    touchFiles fs dir (f :: rest) = (fs, [], some e) := by
  simp [touchFiles, h]

theorem cs_nil {fs : FS} {base : FsPath} :
    create_structure fs base .nil = (fs, [], none) := by
  simp [create_structure]

theorem cs_none_ok {fs fs1 : FS} {base : FsPath} {name : String} {rest : PyDict}
    (h : touch fs (base ++ [name]) = .ok fs1) :
    create_structure fs base (.cons name .none rest)
      = ((create_structure fs1 base rest).1,
         .mkFile (base ++ [name]) :: (create_structure fs1 base rest).2.1,
         (create_structure fs1 base rest).2.2) := by
  simp [create_structure, h]

theorem cs_none_err {fs : FS} {base : FsPath} {name : String} {rest : PyDict}
    {e : FSError} (h : touch fs (base ++ [name]) = .error e) :
    create_structure fs base (.cons name .none rest) = (fs, [], some e) := by
  simp [create_structure, h]

theorem cs_dict_err {fs : FS} {base : FsPath} {name : String}
    {entries rest : PyDict} {e : FSError}
    (h : mkdir fs (base ++ [name]) = .error e) :
    create_structure fs base (.cons name (.dict entries) rest) = (fs, [], some e) := by
  simp [create_structure, h]

theorem cs_dict_child_err {fs fs1 : FS} {base : FsPath} {name : String}
    {entries rest : PyDict} {e : FSError}
    (h : mkdir fs (base ++ [name]) = .ok fs1)
    (hc : (create_structure fs1 (base ++ [name]) entries).2.2 = some e) :
    create_structure fs base (.cons name (.dict entries) rest)
      = ((create_structure fs1 (base ++ [name]) entries).1,
         .mkDir (base ++ [name]) :: (create_structure fs1 (base ++ [name]) entries).2.1,
         some e) := by
  simp [create_structure, h, hc]

theorem cs_dict_ok {fs fs1 : FS} {base : FsPath} {name : String}
    {entries rest : PyDict}
    (h : mkdir fs (base ++ [name]) = .ok fs1)
    (hc : (create_structure fs1 (base ++ [name]) entries).2.2 = none) :
    create_structure fs base (.cons name (.dict entries) rest)
      = ((create_structure (create_structure fs1 (base ++ [name]) entries).1 base rest).1,
         .mkDir (base ++ [name])
           :: ((create_structure fs1 (base ++ [name]) entries).2.1
             ++ (create_structure (create_structure fs1 (base ++ [name]) entries).1 base rest).2.1),
         (create_structure (create_structure fs1 (base ++ [name]) entries).1 base rest).2.2) := by
  simp [create_structure, h, hc]

theorem cs_list_err {fs : FS} {base : FsPath} {name : String}
    {names : List String} {rest : PyDict} {e : FSError}
    (h : mkdir fs (base ++ [name]) = .error e) :
    create_structure fs base (.cons name (.list names) rest) = (fs, [], some e) := by
  simp [create_structure, h]

theorem cs_list_files_err {fs fs1 : FS} {base : FsPath} {name : String}
    {names : List String} {rest : PyDict} {e : FSError}
    (h : mkdir fs (base ++ [name]) = .ok fs1)
    (hc : (touchFiles fs1 (base ++ [name]) names).2.2 = some e) :
    create_structure fs base (.cons name (.list names) rest)
      = ((touchFiles fs1 (base ++ [name]) names).1,
         .mkDir (base ++ [name]) :: (touchFiles fs1 (base ++ [name]) names).2.1,
         some e) := by
  simp [create_structure, h, hc]

theorem cs_list_ok {fs fs1 : FS} {base : FsPath} {name : String}
    {names : List String} {rest : PyDict}
    (h : mkdir fs (base ++ [name]) = .ok fs1)
    (hc : (touchFiles fs1 (base ++ [name]) names).2.2 = none) :
    create_structure fs base (.cons name (.list names) rest)
      = ((create_structure (touchFiles fs1 (base ++ [name]) names).1 base rest).1,
         .mkDir (base ++ [name])
           :: ((touchFiles fs1 (base ++ [name]) names).2.1
             ++ (create_structure (touchFiles fs1 (base ++ [name]) names).1 base rest).2.1),
         (create_structure (touchFiles fs1 (base ++ [name]) names).1 base rest).2.2) := by
  simp [create_structure, h, hc]

theorem cs_str {fs : FS} {base : FsPath} {name s : String} {rest : PyDict} :
    create_structure fs base (.cons name (.str s) rest)
      = create_structure fs base rest := by
  simp [create_structure]

theorem cs_int {fs : FS} {base : FsPath} {name : String} {n : Int} {rest : PyDict} :
    create_structure fs base (.cons name (.int n) rest)
      = create_structure fs base rest := by
  simp [create_structure]

/-! ### The walk never modifies an existing binding -/

theorem touchFiles_find_mono {names : List String} {dir : FsPath} :
    ∀ {fs : FS} {p : FsPath} {e : Entry}, fs.find p = some e →
      ((touchFiles fs dir names).1).find p = some e := by
  induction names with
  | nil => intro fs p e h; rw [touchFiles_nil]; exact h
  | cons f rest ih =>
    intro fs p e h
    cases ht : touch fs (dir ++ [f]) with
    | error e' => rw [touchFiles_cons_err ht]; exact h
    | ok fs1 => rw [touchFiles_cons_ok ht]; exact ih (touch_find_mono ht h)

theorem cs_find_mono (fs : FS) (base : FsPath) (st : PyDict) :
    ∀ p e, fs.find p = some e → ((create_structure fs base st).1).find p = some e := by
  induction fs, base, st using create_structure.induct with
  | case1 fs base => intro p e h; rw [cs_nil]; exact h
  | case2 fs base name rest e' ht => intro p e h; rw [cs_none_err ht]; exact h
  | case3 fs base name rest fs1 ht ih =>
    intro p e h
    rw [cs_none_ok ht]
    exact ih p e (touch_find_mono ht h)
  | case4 fs base name rest entries e' hmk =>
    intro p e h; rw [cs_dict_err hmk]; exact h
  | case5 fs base name rest entries fs1 hmk rc e' hc ihe =>
    intro p e h
    rw [cs_dict_child_err hmk hc]
    exact ihe p e (mkdir_find_mono hmk h)
  | case6 fs base name rest entries fs1 hmk rc hc ihe ihr =>
    intro p e h
    rw [cs_dict_ok hmk hc]
    exact ihr p e (ihe p e (mkdir_find_mono hmk h))
  | case7 fs base name rest names e' hmk =>
    intro p e h; rw [cs_list_err hmk]; exact h
  | case8 fs base name rest names fs1 hmk rf e' hc =>
    intro p e h
    rw [cs_list_files_err hmk hc]
    exact touchFiles_find_mono (mkdir_find_mono hmk h)
  | case9 fs base name rest names fs1 hmk rf hc ihr =>
    intro p e h
    rw [cs_list_ok hmk hc]
    exact ihr p e (touchFiles_find_mono (mkdir_find_mono hmk h))
  | case10 fs base name rest s ih => intro p e h; rw [cs_str]; exact ih p e h
  | case11 fs base name rest n ih => intro p e h; rw [cs_int]; exact ih p e h

/-! ### Re-running a successful walk changes nothing -/

theorem touchFiles_stable {dir : FsPath} :
    ∀ {names : List String} {fs : FS}, (touchFiles fs dir names).2.2 = none →
      ∀ g : FS, FS.Extends g (touchFiles fs dir names).1 →
        touchFiles g dir names = (g, (touchFiles fs dir names).2.1, none) := by
  intro names
  induction names with
  | nil => intro fs h g hg; simp [touchFiles_nil]
  | cons f rest ih =>
    intro fs h g hg
    cases ht : touch fs (dir ++ [f]) with
    | error e => rw [touchFiles_cons_err ht] at h; simp at h
    | ok fs1 =>
      rw [touchFiles_cons_ok ht] at h hg ⊢
      obtain ⟨e0, he0⟩ := touch_ok_find_some ht
      have he1 : ((touchFiles fs1 dir rest).1).find (dir ++ [f]) = some e0 :=
        touchFiles_find_mono he0
      have htg : touch g (dir ++ [f]) = .ok g :=
        touch_ok_of_find_some (hg _ _ he1)
      rw [touchFiles_cons_ok htg, ih h g hg]

theorem cs_stable (fs : FS) (base : FsPath) (st : PyDict) :
    (create_structure fs base st).2.2 = none →
    ∀ g : FS, FS.Extends g (create_structure fs base st).1 →
      create_structure g base st = (g, (create_structure fs base st).2.1, none) := by
  induction fs, base, st using create_structure.induct with
  | case1 fs base => intro h g hg; simp [cs_nil]
  | case2 fs base name rest e' ht =>
    intro h g hg; rw [cs_none_err ht] at h; simp at h
  | case3 fs base name rest fs1 ht ih =>
    intro h g hg
    rw [cs_none_ok ht] at h hg ⊢
    obtain ⟨e0, he0⟩ := touch_ok_find_some ht
    have he1 : ((create_structure fs1 base rest).1).find (base ++ [name]) = some e0 :=
      cs_find_mono _ _ _ _ _ he0
    have htg : touch g (base ++ [name]) = .ok g :=
      touch_ok_of_find_some (hg _ _ he1)
    rw [cs_none_ok htg, ih h g hg]
  | case4 fs base name rest entries e' hmk =>
    intro h g hg; rw [cs_dict_err hmk] at h; simp at h
  | case5 fs base name rest entries fs1 hmk rc e' hc ihe =>
    intro h g hg; rw [cs_dict_child_err hmk hc] at h; simp at h
  | case6 fs base name rest entries fs1 hmk rc hc ihe ihr =>
    intro h g hg
    rw [cs_dict_ok hmk hc] at h hg ⊢
    have hd1 : fs1.find (base ++ [name]) = some .dir := mkdir_ok_find_dir hmk
    have hd2 : ((create_structure fs1 (base ++ [name]) entries).1).find (base ++ [name])
        = some .dir := cs_find_mono _ _ _ _ _ hd1
    have hd3 : ((create_structure (create_structure fs1 (base ++ [name]) entries).1
        base rest).1).find (base ++ [name]) = some .dir := cs_find_mono _ _ _ _ _ hd2
    have hmkg : mkdir g (base ++ [name]) = .ok g :=
      mkdir_ok_of_find_dir (hg _ _ hd3)
    have hge : FS.Extends g (create_structure fs1 (base ++ [name]) entries).1 :=
      fun p e hp => hg p e (cs_find_mono _ _ _ _ _ hp)
    have hcg := ihe hc g hge
    have hrg := ihr h g hg
    have hcg2 : (create_structure g (base ++ [name]) entries).2.2 = none := by
      rw [hcg]
    rw [cs_dict_ok hmkg hcg2]
    simp [hcg, hrg]
  | case7 fs base name rest names e' hmk =>
    intro h g hg; rw [cs_list_err hmk] at h; simp at h
  | case8 fs base name rest names fs1 hmk rf e' hc =>
    intro h g hg; rw [cs_list_files_err hmk hc] at h; simp at h
  | case9 fs base name rest names fs1 hmk rf hc ihr =>
    intro h g hg
    rw [cs_list_ok hmk hc] at h hg ⊢
    have hd1 : fs1.find (base ++ [name]) = some .dir := mkdir_ok_find_dir hmk
    have hd2 : ((touchFiles fs1 (base ++ [name]) names).1).find (base ++ [name])
        = some .dir := touchFiles_find_mono hd1
    have hd3 : ((create_structure (touchFiles fs1 (base ++ [name]) names).1
        base rest).1).find (base ++ [name]) = some .dir := cs_find_mono _ _ _ _ _ hd2
    have hmkg : mkdir g (base ++ [name]) = .ok g :=
      mkdir_ok_of_find_dir (hg _ _ hd3)
    have hge : FS.Extends g (touchFiles fs1 (base ++ [name]) names).1 :=
      fun p e hp => hg p e (cs_find_mono _ _ _ _ _ hp)
    have hcg := touchFiles_stable hc g hge
    have hrg := ihr h g hg
    have hcg2 : (touchFiles g (base ++ [name]) names).2.2 = none := by
      rw [hcg]
    rw [cs_list_ok hmkg hcg2]
    simp [hcg, hrg]
  | case10 fs base name rest s ih =>
    intro h g hg
    rw [cs_str] at h hg ⊢
    exact ih h g hg
  | case11 fs base name rest n ih =>
    intro h g hg
    rw [cs_int] at h hg ⊢
    exact ih h g hg

/-! ### After a successful walk every declared path exists -/

theorem touchFiles_files_exist {dir : FsPath} :
    ∀ {names : List String} {fs : FS}, (touchFiles fs dir names).2.2 = none →
      ∀ f ∈ names, ∃ e, ((touchFiles fs dir names).1).find (dir ++ [f]) = some e := by
  intro names
  induction names with
  | nil => intro fs h f hf; simp at hf
  | cons f0 rest ih =>
    intro fs h f hf
    cases ht : touch fs (dir ++ [f0]) with
    | error e => rw [touchFiles_cons_err ht] at h; simp at h
    | ok fs1 =>
      rw [touchFiles_cons_ok ht] at h ⊢
      rcases List.mem_cons.mp hf with hf0 | hfr
      · subst hf0
        obtain ⟨e0, he0⟩ := touch_ok_find_some ht
        exact ⟨e0, touchFiles_find_mono he0⟩
      · exact ih h f hfr

theorem cs_dirs_exist (fs : FS) (base : FsPath) (st : PyDict) :
    (create_structure fs base st).2.2 = none →
    ∀ p ∈ dirPaths base st, ((create_structure fs base st).1).find p = some .dir := by
  induction fs, base, st using create_structure.induct with
  | case1 fs base => intro h p hp; simp [dirPaths] at hp
  | case2 fs base name rest e' ht =>
    intro h p hp; rw [cs_none_err ht] at h; simp at h
  | case3 fs base name rest fs1 ht ih =>
    intro h p hp
    rw [cs_none_ok ht] at h ⊢
    simp only [dirPaths] at hp
    exact ih h p hp
  | case4 fs base name rest entries e' hmk =>
    intro h p hp; rw [cs_dict_err hmk] at h; simp at h
  | case5 fs base name rest entries fs1 hmk rc e' hc ihe =>
    intro h p hp; rw [cs_dict_child_err hmk hc] at h; simp at h
  | case6 fs base name rest entries fs1 hmk rc hc ihe ihr =>
    intro h p hp
    rw [cs_dict_ok hmk hc] at h ⊢
    simp only [dirPaths, List.mem_cons, List.mem_append] at hp
    rcases hp with hp | hp | hp
    · subst hp
      exact cs_find_mono _ _ _ _ _ (cs_find_mono _ _ _ _ _ (mkdir_ok_find_dir hmk))
    · exact cs_find_mono _ _ _ _ _ (ihe hc p hp)
    · exact ihr h p hp
  | case7 fs base name rest names e' hmk =>
    intro h p hp; rw [cs_list_err hmk] at h; simp at h
  | case8 fs base name rest names fs1 hmk rf e' hc =>
    intro h p hp; rw [cs_list_files_err hmk hc] at h; simp at h
  | case9 fs base name rest names fs1 hmk rf hc ihr =>
    intro h p hp
    rw [cs_list_ok hmk hc] at h ⊢
    simp only [dirPaths, List.mem_cons] at hp
    rcases hp with hp | hp
    · subst hp
      exact cs_find_mono _ _ _ _ _ (touchFiles_find_mono (mkdir_ok_find_dir hmk))
    · exact ihr h p hp
  | case10 fs base name rest s ih =>
    intro h p hp
    rw [cs_str] at h ⊢
    simp only [dirPaths] at hp
    exact ih h p hp
  | case11 fs base name rest n ih =>
    intro h p hp
    rw [cs_int] at h ⊢
    simp only [dirPaths] at hp
    exact ih h p hp

theorem cs_files_exist (fs : FS) (base : FsPath) (st : PyDict) :
    (create_structure fs base st).2.2 = none →
    ∀ p ∈ filePaths base st, ∃ e, ((create_structure fs base st).1).find p = some e := by
  induction fs, base, st using create_structure.induct with
  | case1 fs base => intro h p hp; simp [filePaths] at hp
  | case2 fs base name rest e' ht =>
    intro h p hp; rw [cs_none_err ht] at h; simp at h
  | case3 fs base name rest fs1 ht ih =>
    intro h p hp
    rw [cs_none_ok ht] at h ⊢
    simp only [filePaths, List.mem_cons] at hp
    rcases hp with hp | hp
    · subst hp
      obtain ⟨e0, he0⟩ := touch_ok_find_some ht
      exact ⟨e0, cs_find_mono _ _ _ _ _ he0⟩
    · exact ih h p hp
  | case4 fs base name rest entries e' hmk =>
    intro h p hp; rw [cs_dict_err hmk] at h; simp at h
  | case5 fs base name rest entries fs1 hmk rc e' hc ihe =>
    intro h p hp; rw [cs_dict_child_err hmk hc] at h; simp at h
  | case6 fs base name rest entries fs1 hmk rc hc ihe ihr =>
    intro h p hp
    rw [cs_dict_ok hmk hc] at h ⊢
    simp only [filePaths, List.mem_append] at hp
    rcases hp with hp | hp
    · obtain ⟨e0, he0⟩ := ihe hc p hp
      exact ⟨e0, cs_find_mono _ _ _ _ _ he0⟩
    · exact ihr h p hp
  | case7 fs base name rest names e' hmk =>
    intro h p hp; rw [cs_list_err hmk] at h; simp at h
  | case8 fs base name rest names fs1 hmk rf e' hc =>
    intro h p hp; rw [cs_list_files_err hmk hc] at h; simp at h
  | case9 fs base name rest names fs1 hmk rf hc ihr =>
    intro h p hp
    rw [cs_list_ok hmk hc] at h ⊢
    simp only [filePaths, List.mem_append, List.mem_map] at hp
    rcases hp with ⟨f, hf, rfl⟩ | hp
    · obtain ⟨e0, he0⟩ := touchFiles_files_exist hc f hf
      exact ⟨e0, cs_find_mono _ _ _ _ _ he0⟩
    · exact ihr h p hp
  | case10 fs base name rest s ih =>
    intro h p hp
    rw [cs_str] at h ⊢
    simp only [filePaths] at hp
    exact ih h p hp
  | case11 fs base name rest n ih =>
    intro h p hp
    rw [cs_int] at h ⊢
    simp only [filePaths] at hp
    exact ih h p hp

/-! ### Everything the walk adds is an empty file or a declared directory -/

theorem touchFiles_new {dir : FsPath} :
    ∀ {names : List String} {fs : FS} {p : FsPath}, fs.find p = none →
      ((touchFiles fs dir names).1).find p = none
        ∨ ((touchFiles fs dir names).1).find p = some (.file "") := by
  intro names
  induction names with
  | nil => intro fs p h; rw [touchFiles_nil]; exact .inl h
  | cons f rest ih =>
    intro fs p h
    cases ht : touch fs (dir ++ [f]) with
    | error e => rw [touchFiles_cons_err ht]; exact .inl h
    | ok fs1 =>
      rw [touchFiles_cons_ok ht]
      rcases touch_new ht h with h1 | ⟨rfl, h1⟩
      · exact ih h1
      · exact .inr (touchFiles_find_mono h1)

theorem cs_new (fs : FS) (base : FsPath) (st : PyDict) :
    ∀ p, fs.find p = none →
      ((create_structure fs base st).1).find p = none
        ∨ ((create_structure fs base st).1).find p = some (.file "")
        ∨ (((create_structure fs base st).1).find p = some .dir ∧ p ∈ dirPaths base st) := by
  induction fs, base, st using create_structure.induct with
  | case1 fs base => intro p h; rw [cs_nil]; exact .inl h
  | case2 fs base name rest e' ht => intro p h; rw [cs_none_err ht]; exact .inl h
  | case3 fs base name rest fs1 ht ih =>
    intro p h
    rw [cs_none_ok ht]
    simp only [dirPaths]
    rcases touch_new ht h with h1 | ⟨rfl, h1⟩
    · exact ih p h1
    · exact .inr (.inl (cs_find_mono _ _ _ _ _ h1))
  | case4 fs base name rest entries e' hmk => intro p h; rw [cs_dict_err hmk]; exact .inl h
  | case5 fs base name rest entries fs1 hmk rc e' hc ihe =>
    intro p h
    rw [cs_dict_child_err hmk hc]
    rcases mkdir_new hmk h with h1 | ⟨rfl, h1⟩
    · rcases ihe p h1 with h2 | h2 | ⟨h2, hmem⟩
      · exact .inl h2
      · exact .inr (.inl h2)
      · refine .inr (.inr ⟨h2, ?_⟩)
        simp only [dirPaths, List.mem_cons, List.mem_append]
        exact .inr (.inl hmem)
    · refine .inr (.inr ⟨cs_find_mono _ _ _ _ _ h1, ?_⟩)
      simp [dirPaths]
  | case6 fs base name rest entries fs1 hmk rc hc ihe ihr =>
    intro p h
    rw [cs_dict_ok hmk hc]
    have memtail : ∀ q, q ∈ dirPaths (base ++ [name]) entries →
        q ∈ dirPaths base (.cons name (.dict entries) rest) := by
      intro q hq
      simp only [dirPaths, List.mem_cons, List.mem_append]
      exact .inr (.inl hq)
    have memrest : ∀ q, q ∈ dirPaths base rest →
        q ∈ dirPaths base (.cons name (.dict entries) rest) := by
      intro q hq
      simp only [dirPaths, List.mem_cons, List.mem_append]
      exact .inr (.inr hq)
    simp only [dirPaths, List.mem_cons, List.mem_append] at memtail memrest ⊢
    rcases mkdir_new hmk h with h1 | ⟨rfl, h1⟩
    · rcases ihe p h1 with h2 | h2 | ⟨h2, hmem⟩
      · rcases ihr p h2 with h3 | h3 | ⟨h3, hmem⟩
        · exact .inl h3
        · exact .inr (.inl h3)
        · exact .inr (.inr ⟨h3, .inr (.inr hmem)⟩)
      · exact .inr (.inl (cs_find_mono _ _ _ _ _ h2))
      · exact .inr (.inr ⟨cs_find_mono _ _ _ _ _ h2, .inr (.inl hmem)⟩)
    · exact .inr (.inr ⟨cs_find_mono _ _ _ _ _ (cs_find_mono _ _ _ _ _ h1), .inl rfl⟩)
  | case7 fs base name rest names e' hmk => intro p h; rw [cs_list_err hmk]; exact .inl h
  | case8 fs base name rest names fs1 hmk rf e' hc =>
    intro p h
    rw [cs_list_files_err hmk hc]
    rcases mkdir_new hmk h with h1 | ⟨rfl, h1⟩
    · rcases touchFiles_new h1 with h2 | h2
      · exact .inl h2
      · exact .inr (.inl h2)
    · refine .inr (.inr ⟨touchFiles_find_mono h1, ?_⟩)
      simp [dirPaths]
  | case9 fs base name rest names fs1 hmk rf hc ihr =>
    intro p h
    rw [cs_list_ok hmk hc]
    simp only [dirPaths, List.mem_cons]
    rcases mkdir_new hmk h with h1 | ⟨rfl, h1⟩
    · rcases touchFiles_new h1 with h2 | h2
      · rcases ihr p h2 with h3 | h3 | ⟨h3, hmem⟩
        · exact .inl h3
        · exact .inr (.inl h3)
        · exact .inr (.inr ⟨h3, .inr hmem⟩)
      · exact .inr (.inl (cs_find_mono _ _ _ _ _ h2))
    · exact .inr (.inr ⟨cs_find_mono _ _ _ _ _ (touchFiles_find_mono h1), .inl rfl⟩)
  | case10 fs base name rest s ih =>
    intro p h
    rw [cs_str]
    simp only [dirPaths]
    exact ih p h
  | case11 fs base name rest n ih =>
    intro p h
    rw [cs_int]
    simp only [dirPaths]
    exact ih p h

/-! ### Every creation notice names a path strictly below the base -/

theorem touchFiles_events {dir : FsPath} :
    ∀ {names : List String} {fs : FS},
      ∀ ev ∈ (touchFiles fs dir names).2.1,
        ∃ f, f ∈ names ∧ ev = .mkFile (dir ++ [f]) := by
  intro names
  induction names with
  | nil => intro fs ev hev; rw [touchFiles_nil] at hev; simp at hev
  | cons f rest ih =>
    intro fs ev hev
    cases ht : touch fs (dir ++ [f]) with
    | error e => rw [touchFiles_cons_err ht] at hev; simp at hev
    | ok fs1 =>
      rw [touchFiles_cons_ok ht] at hev
      rcases List.mem_cons.mp hev with rfl | hev1
      · exact ⟨f, List.mem_cons_self f rest, rfl⟩
      · obtain ⟨f1, hf1, rfl⟩ := ih ev hev1
        exact ⟨f1, List.mem_cons_of_mem f hf1, rfl⟩

theorem cs_events_below (fs : FS) (base : FsPath) (st : PyDict) :
    ∀ ev ∈ (create_structure fs base st).2.1,
      ∃ suf, suf ≠ [] ∧ ev.path = base ++ suf := by
  induction fs, base, st using create_structure.induct with
  | case1 fs base => intro ev hev; rw [cs_nil] at hev; simp at hev
  | case2 fs base name rest e' ht => intro ev hev; rw [cs_none_err ht] at hev; simp at hev
  | case3 fs base name rest fs1 ht ih =>
    intro ev hev
    rw [cs_none_ok ht] at hev
    rcases List.mem_cons.mp hev with rfl | hev1
    · exact ⟨[name], by simp, rfl⟩
    · exact ih ev hev1
  | case4 fs base name rest entries e' hmk =>
    intro ev hev; rw [cs_dict_err hmk] at hev; simp at hev
  | case5 fs base name rest entries fs1 hmk rc e' hc ihe =>
    intro ev hev
    rw [cs_dict_child_err hmk hc] at hev
    rcases List.mem_cons.mp hev with rfl | hev1
    · exact ⟨[name], by simp, rfl⟩
    · obtain ⟨suf, hne, hsuf⟩ := ihe ev hev1
      exact ⟨name :: suf, by simp, by simp [hsuf]⟩
  | case6 fs base name rest entries fs1 hmk rc hc ihe ihr =>
    intro ev hev
    rw [cs_dict_ok hmk hc] at hev
    rcases List.mem_cons.mp hev with rfl | hev1
    · exact ⟨[name], by simp, rfl⟩
    · rcases List.mem_append.mp hev1 with hev2 | hev2
      · obtain ⟨suf, hne, hsuf⟩ := ihe ev hev2
        exact ⟨name :: suf, by simp, by simp [hsuf]⟩
      · exact ihr ev hev2
  | case7 fs base name rest names e' hmk =>
    intro ev hev; rw [cs_list_err hmk] at hev; simp at hev
  | case8 fs base name rest names fs1 hmk rf e' hc =>
    intro ev hev
    rw [cs_list_files_err hmk hc] at hev
    rcases List.mem_cons.mp hev with rfl | hev1
    · exact ⟨[name], by simp, rfl⟩
    · obtain ⟨f, hf, rfl⟩ := touchFiles_events ev hev1
      exact ⟨[name, f], by simp, by simp [Event.path]⟩
  | case9 fs base name rest names fs1 hmk rf hc ihr =>
    intro ev hev
    rw [cs_list_ok hmk hc] at hev
    rcases List.mem_cons.mp hev with rfl | hev1
    · exact ⟨[name], by simp, rfl⟩
    · rcases List.mem_append.mp hev1 with hev2 | hev2
      · obtain ⟨f, hf, rfl⟩ := touchFiles_events ev hev2
        exact ⟨[name, f], by simp, by simp [Event.path]⟩
      · exact ihr ev hev2
  | case10 fs base name rest s ih =>
    intro ev hev
    rw [cs_str] at hev
    exact ih ev hev
  | case11 fs base name rest n ih =>
    intro ev hev
    rw [cs_int] at hev
    exact ih ev hev

/-! ### Composition of the walk over concatenated dicts -/

theorem append_nil_eq {d2 : PyDict} : PyDict.append .nil d2 = d2 := rfl

theorem append_cons_eq {name : String} {v : PyValue} {rest d2 : PyDict} :
    PyDict.append (.cons name v rest) d2 = .cons name v (PyDict.append rest d2) := rfl

theorem cs_append_err (fs : FS) (base : FsPath) (d1 : PyDict) :
    ∀ d2 : PyDict, ∀ e : FSError, (create_structure fs base d1).2.2 = some e →
      create_structure fs base (d1.append d2)
        = ((create_structure fs base d1).1, (create_structure fs base d1).2.1, some e) := by
  induction fs, base, d1 using create_structure.induct with
  | case1 fs base => intro d2 e h; rw [cs_nil] at h; simp at h
  | case2 fs base name rest e' ht =>
    intro d2 e h
    rw [cs_none_err ht] at h ⊢
    simp only [Option.some.injEq] at h
    subst h
    rw [append_cons_eq, cs_none_err ht]
  | case3 fs base name rest fs1 ht ih =>
    intro d2 e h
    rw [cs_none_ok ht] at h ⊢
    rw [append_cons_eq, cs_none_ok ht, ih d2 e h]
  | case4 fs base name rest entries e' hmk =>
    intro d2 e h
    rw [cs_dict_err hmk] at h ⊢
    simp only [Option.some.injEq] at h
    subst h
    rw [append_cons_eq, cs_dict_err hmk]
  | case5 fs base name rest entries fs1 hmk rc e' hc ihe =>
    intro d2 e h
    rw [cs_dict_child_err hmk hc] at h ⊢
    simp only [Option.some.injEq] at h
    subst h
    rw [append_cons_eq, cs_dict_child_err hmk hc]
  | case6 fs base name rest entries fs1 hmk rc hc ihe ihr =>
    intro d2 e h
    rw [cs_dict_ok hmk hc] at h ⊢
    rw [append_cons_eq, cs_dict_ok hmk hc, ihr d2 e h]
  | case7 fs base name rest names e' hmk =>
    intro d2 e h
    rw [cs_list_err hmk] at h ⊢
    simp only [Option.some.injEq] at h
    subst h
    rw [append_cons_eq, cs_list_err hmk]
  | case8 fs base name rest names fs1 hmk rf e' hc =>
    intro d2 e h
    rw [cs_list_files_err hmk hc] at h ⊢
    simp only [Option.some.injEq] at h
    subst h
    rw [append_cons_eq, cs_list_files_err hmk hc]
  | case9 fs base name rest names fs1 hmk rf hc ihr =>
    intro d2 e h
    rw [cs_list_ok hmk hc] at h ⊢
    rw [append_cons_eq, cs_list_ok hmk hc, ihr d2 e h]
  | case10 fs base name rest s ih =>
    intro d2 e h
    rw [cs_str] at h ⊢
    rw [append_cons_eq, cs_str, ih d2 e h]
  | case11 fs base name rest n ih =>
    intro d2 e h
    rw [cs_int] at h ⊢
    rw [append_cons_eq, cs_int, ih d2 e h]

theorem cs_append_ok (fs : FS) (base : FsPath) (d1 : PyDict) :
    ∀ d2 : PyDict, (create_structure fs base d1).2.2 = none →
      create_structure fs base (d1.append d2)
        = ((create_structure (create_structure fs base d1).1 base d2).1,
           (create_structure fs base d1).2.1
             ++ (create_structure (create_structure fs base d1).1 base d2).2.1,
           (create_structure (create_structure fs base d1).1 base d2).2.2) := by
  induction fs, base, d1 using create_structure.induct with
  | case1 fs base => intro d2 h; rw [append_nil_eq]; simp [cs_nil]
  | case2 fs base name rest e' ht =>
    intro d2 h; rw [cs_none_err ht] at h; simp at h
  | case3 fs base name rest fs1 ht ih =>
    intro d2 h
    rw [cs_none_ok ht] at h ⊢
    rw [append_cons_eq, cs_none_ok ht, ih d2 h]
    simp
  | case4 fs base name rest entries e' hmk =>
    intro d2 h; rw [cs_dict_err hmk] at h; simp at h
  | case5 fs base name rest entries fs1 hmk rc e' hc ihe =>
    intro d2 h; rw [cs_dict_child_err hmk hc] at h; simp at h
  | case6 fs base name rest entries fs1 hmk rc hc ihe ihr =>
    intro d2 h
    rw [cs_dict_ok hmk hc] at h ⊢
    rw [append_cons_eq, cs_dict_ok hmk hc, ihr d2 h]
    simp
  | case7 fs base name rest names e' hmk =>
    intro d2 h; rw [cs_list_err hmk] at h; simp at h
  | case8 fs base name rest names fs1 hmk rf e' hc =>
    intro d2 h; rw [cs_list_files_err hmk hc] at h; simp at h
  | case9 fs base name rest names fs1 hmk rf hc ihr =>
    intro d2 h
    rw [cs_list_ok hmk hc] at h ⊢
    rw [append_cons_eq, cs_list_ok hmk hc, ihr d2 h]
    simp
  | case10 fs base name rest s ih =>
    intro d2 h
    rw [cs_str] at h ⊢
    rw [append_cons_eq, cs_str, ih d2 h]
  | case11 fs base name rest n ih =>
    intro d2 h
    rw [cs_int] at h ⊢
    rw [append_cons_eq, cs_int, ih d2 h]

/-! ### Declared paths relativize over the base path -/

theorem dirPaths_shift (base : FsPath) (st : PyDict) :
    ∀ b1 : FsPath, dirPaths (b1 ++ base) st = (dirPaths base st).map (fun s => b1 ++ s) := by
  induction base, st using dirPaths.induct with
  | case1 base => intro b1; simp [dirPaths]
  | case2 base name rest entries ihe ihr =>
    intro b1
    simp [dirPaths, List.append_assoc, ihe b1, ihr b1]
  | case3 base name rest names ihr =>
    intro b1
    simp only [dirPaths, List.map_cons, List.append_assoc]
    rw [ihr b1]
  | case4 base name content rest hnd hnl ihr =>
    intro b1
    cases content with
    | dict entries => exact (hnd entries rfl).elim
    | list names => exact (hnl names rfl).elim
    | none => simp only [dirPaths]; exact ihr b1
    | str s => simp only [dirPaths]; exact ihr b1
    | int n => simp only [dirPaths]; exact ihr b1

theorem filePaths_shift (base : FsPath) (st : PyDict) :
    ∀ b1 : FsPath, filePaths (b1 ++ base) st = (filePaths base st).map (fun s => b1 ++ s) := by
  induction base, st using filePaths.induct with
  | case1 base => intro b1; simp [filePaths]
  | case2 base name rest ihr =>
    intro b1
    simp only [filePaths, List.map_cons, List.append_assoc]
    rw [ihr b1]
  | case3 base name rest entries ihe ihr =>
    intro b1
    simp [filePaths, List.append_assoc, ihe b1, ihr b1]
  | case4 base name rest names ihr =>
    intro b1
    simp [filePaths, List.map_map, Function.comp, List.append_assoc, ihr b1]
  | case5 base name content rest hn hnd hnl ihr =>
    intro b1
    cases content with
    | none => exact (hn rfl).elim
    | dict entries => exact (hnd entries rfl).elim
    | list names => exact (hnl names rfl).elim
    | str s => simp only [filePaths]; exact ihr b1
    | int n => simp only [filePaths]; exact ihr b1

theorem dirPaths_eq_map (base : FsPath) (st : PyDict) :
    dirPaths base st = (dirPaths [] st).map (fun s => base ++ s) := by
  have h := dirPaths_shift [] st base
  simpa using h

theorem filePaths_eq_map (base : FsPath) (st : PyDict) :
    filePaths base st = (filePaths [] st).map (fun s => base ++ s) := by
  have h := filePaths_shift [] st base
  simpa using h

/-- In the hard-coded description no path is declared both as a file and
as a directory. -/
theorem structure_file_dir_disjoint (cwd p : FsPath)
    (hf : p ∈ filePaths cwd «structure») (hd : p ∈ dirPaths cwd «structure») : False := by
  rw [filePaths_eq_map] at hf
  rw [dirPaths_eq_map] at hd
  obtain ⟨s1, hs1, hseq⟩ := List.mem_map.mp hf
  obtain ⟨s2, hs2, heq⟩ := List.mem_map.mp hd
  rw [← hseq] at heq
  have hss : s2 = s1 := List.append_cancel_left heq
  subst hss
  have hdisj : ∀ s ∈ filePaths [] «structure», s ∉ dirPaths [] «structure» := by decide
  exact hdisj s2 hs1 hs2

/-! ### The claims -/

/-- C2: running `create_structure` twice against the same initially empty
target root produces the same final filesystem tree as running it once:
the second run returns the first run's filesystem unchanged (so it
creates zero new bytes of content and overwrites no existing file),
emits the same progress output, and raises no error. -/
theorem claim_C2 (cwd : FsPath)
    (h : (create_structure (emptyRoot cwd) cwd «structure»).2.2 = none) :
    create_structure (create_structure (emptyRoot cwd) cwd «structure»).1 cwd «structure»
      = ((create_structure (emptyRoot cwd) cwd «structure»).1,
         (create_structure (emptyRoot cwd) cwd «structure»).2.1,
         none) :=
  cs_stable _ _ _ h _ (fun _ _ hp => hp)

theorem claim_C2_witness :
    (create_structure (emptyRoot []) [] «structure»).2.2 = none
    ∧ create_structure (create_structure (emptyRoot []) [] «structure»).1 [] «structure»
        = ((create_structure (emptyRoot []) [] «structure»).1,
           (create_structure (emptyRoot []) [] «structure»).2.1,
           none) :=
  ⟨by decide, claim_C2 [] (by decide)⟩

/-- C3: every binding that exists before a run of `create_structure` —
in particular every file path holding non-empty content, and every
unrelated pre-existing entry of every directory — is found unchanged,
byte for byte, after the run. -/
theorem claim_C3 (fs : FS) (base : FsPath) (st : PyDict) (p : FsPath) (e : Entry)
    (h : FS.find fs p = some e) :
    FS.find (create_structure fs base st).1 p = some e :=
  cs_find_mono fs base st p e h

theorem claim_C3_witness :
    FS.find (create_structure [([], Entry.dir), (["notes.txt"], Entry.file "hello")]
      [] «structure»).1 ["notes.txt"] = some (.file "hello") :=
  claim_C3 [([], Entry.dir), (["notes.txt"], Entry.file "hello")] [] «structure»
    ["notes.txt"] (.file "hello") (by decide)

/-- C8: when a path mapped to the File-marker variant (`None`) already
exists as a directory, `create_structure` does not raise: the `touch`
succeeds silently, the walk continues with the remaining entries exactly
as it would on any existing entry, and the path is left as a directory
rather than a file. -/
theorem claim_C8 (fs : FS) (base : FsPath) (name : String) (rest : PyDict)
    (h : FS.find fs (base ++ [name]) = some .dir) :
    create_structure fs base (.cons name .none rest)
      = ((create_structure fs base rest).1,
         .mkFile (base ++ [name]) :: (create_structure fs base rest).2.1,
         (create_structure fs base rest).2.2)
    ∧ FS.find (create_structure fs base (.cons name .none rest)).1 (base ++ [name])
        = some .dir := by
  have ht : touch fs (base ++ [name]) = .ok fs := touch_ok_of_find_some h
  refine ⟨cs_none_ok ht, ?_⟩
  rw [cs_none_ok ht]
  exact cs_find_mono _ _ _ _ _ h

theorem claim_C8_witness :
    create_structure [([], Entry.dir), (["d"], Entry.dir)] [] (.cons "d" .none .nil)
      = ((create_structure [([], Entry.dir), (["d"], Entry.dir)] [] .nil).1,
         .mkFile ["d"] :: (create_structure [([], Entry.dir), (["d"], Entry.dir)] [] .nil).2.1,
         (create_structure [([], Entry.dir), (["d"], Entry.dir)] [] .nil).2.2)
    ∧ FS.find (create_structure [([], Entry.dir), (["d"], Entry.dir)] []
        (.cons "d" .none .nil)).1 ["d"] = some .dir :=
  claim_C8 [([], Entry.dir), (["d"], Entry.dir)] [] "d" .nil (by decide)

/-- C9: a description entry whose value is neither `None` nor a dict nor
a list (a string or a number) is silently skipped: the walk on the dict
with such an entry at its head equals the walk on the remaining entries,
so no filesystem entry is created for that name, nothing is printed for
it, no error is raised, and the walk continues. -/
theorem claim_C9 (fs : FS) (base : FsPath) (name s : String) (n : Int) (rest : PyDict) :
    create_structure fs base (.cons name (.str s) rest) = create_structure fs base rest
    ∧ create_structure fs base (.cons name (.int n) rest) = create_structure fs base rest :=
  ⟨cs_str, cs_int⟩

/-- C10: a Directory-with-file-list node whose file list is empty still
creates its directory and emits exactly one progress line (the `mkDir`
notice), creates no files beneath it, and the walk continues with the
remaining entries from the filesystem the `mkdir` produced. -/
theorem claim_C10 (fs fs1 : FS) (base : FsPath) (name : String) (rest : PyDict)
    (h : mkdir fs (base ++ [name]) = .ok fs1) :
    create_structure fs base (.cons name (.list []) rest)
      = ((create_structure fs1 base rest).1,
         .mkDir (base ++ [name]) :: (create_structure fs1 base rest).2.1,
         (create_structure fs1 base rest).2.2)
    ∧ FS.find fs1 (base ++ [name]) = some .dir := by
  refine ⟨?_, mkdir_ok_find_dir h⟩
  have hc : (touchFiles fs1 (base ++ [name]) []).2.2 = none := rfl
  have := @cs_list_ok fs fs1 base name [] rest h hc
  simpa [touchFiles_nil] using this

theorem claim_C10_witness :
    create_structure (emptyRoot []) [] (.cons "widgets" (.list []) .nil)
      = ((create_structure [(["widgets"], Entry.dir), ([], Entry.dir)] [] .nil).1,
         .mkDir ["widgets"]
           :: (create_structure [(["widgets"], Entry.dir), ([], Entry.dir)] [] .nil).2.1,
         (create_structure [(["widgets"], Entry.dir), ([], Entry.dir)] [] .nil).2.2)
    ∧ FS.find [(["widgets"], Entry.dir), ([], Entry.dir)] ["widgets"] = some .dir :=
  claim_C10 (emptyRoot []) [(["widgets"], Entry.dir), ([], Entry.dir)] [] "widgets" .nil
    (by rfl)

/-- C1 counterexample: against a writable root where `lib/app.dart`
(declared with value `None` in the hard-coded description) already
exists as a directory, the run completes successfully, yet the entry at
that path is a directory — no empty file exists there, contradicting
the claim's "an empty file for every None-valued entry". -/
theorem claim_C1_counterexample :
    (create_structure [([], Entry.dir), (["lib"], Entry.dir), (["lib", "app.dart"], Entry.dir)]
        [] «structure»).2.2 = none
    ∧ FS.find (create_structure
        [([], Entry.dir), (["lib"], Entry.dir), (["lib", "app.dart"], Entry.dir)]
        [] «structure»).1 ["lib", "app.dart"] = some .dir
    ∧ ["lib", "app.dart"] ∈ filePaths [] «structure» :=
  ⟨by decide, by decide, by decide⟩

/-- C1 (amended): after one successful run of `create_structure` with
the hard-coded description against an existing writable root, a
directory exists at the path of every dict-valued and list-valued entry;
an entry exists at the path of every None-valued entry and of every name
in a list, and that entry is an empty file whenever the path did not
already exist before the run (a pre-existing entry keeps its type and
content). -/
theorem claim_C1 (fs : FS) (cwd : FsPath)
    (h : (create_structure fs cwd «structure»).2.2 = none) :
    (∀ p ∈ dirPaths cwd «structure»,
        FS.find (create_structure fs cwd «structure»).1 p = some .dir)
    ∧ (∀ p ∈ filePaths cwd «structure»,
        ∃ e, FS.find (create_structure fs cwd «structure»).1 p = some e)
    ∧ (∀ p ∈ filePaths cwd «structure», FS.find fs p = none →
        FS.find (create_structure fs cwd «structure»).1 p = some (.file "")) := by
  refine ⟨cs_dirs_exist _ _ _ h, cs_files_exist _ _ _ h, ?_⟩
  intro p hp hn
  rcases cs_new fs cwd «structure» p hn with h1 | h1 | ⟨_, hmem⟩
  · obtain ⟨e, he⟩ := cs_files_exist _ _ _ h p hp
    rw [he] at h1
    cases h1
  · exact h1
  · exact (structure_file_dir_disjoint cwd p hp hmem).elim

theorem claim_C1_witness :
    FS.find (create_structure (emptyRoot []) [] «structure»).1 ["lib", "main.dart"]
      = some (.file "") :=
  (claim_C1 (emptyRoot []) [] (by decide)).2.2 ["lib", "main.dart"] (by decide) (by decide)

/-- C4 counterexample: against a root where `lib/main.dart` (a path the
tree wants as a file) is already occupied by a directory, the walk does
not fail at all: the run completes with no error and the directory is
left in place — refuting the claim that a file-wanted/directory-occupied
collision makes `create_structure` fail. -/
theorem claim_C4_counterexample :
    (create_structure [([], Entry.dir), (["lib"], Entry.dir), (["lib", "main.dart"], Entry.dir)]
        [] «structure»).2.2 = none
    ∧ FS.find (create_structure
        [([], Entry.dir), (["lib"], Entry.dir), (["lib", "main.dart"], Entry.dir)]
        [] «structure»).1 ["lib", "main.dart"] = some .dir
    ∧ ["lib", "main.dart"] ∈ filePaths [] «structure» :=
  ⟨by decide, by decide, by decide⟩

/-- C4 (amended): when the walk reaches a name whose path the tree wants
as a directory (a dict-valued or list-valued entry) but a file already
occupies it, `mkdir` raises `FileExistsError`; the error is not caught:
it propagates immediately, the walk halts, and on disk remain exactly
the state and output produced before the failure (later siblings are
never processed). A path the tree wants as a file that is occupied by a
directory does not fail (the `touch` succeeds silently). -/
theorem claim_C4 (fs fs1 : FS) (base : FsPath) (pre : PyDict) (evs : List Event)
    (name c : String) (entries : PyDict) (names : List String) (rest : PyDict)
    (h1 : create_structure fs base pre = (fs1, evs, none))
    (h2 : FS.find fs1 (base ++ [name]) = some (.file c)) :
    create_structure fs base (pre.append (.cons name (.dict entries) rest))
      = (fs1, evs, some .fileExists)
    ∧ create_structure fs base (pre.append (.cons name (.list names) rest))
      = (fs1, evs, some .fileExists) := by
  have hmk : mkdir fs1 (base ++ [name]) = .error .fileExists :=
    mkdir_error_of_find_file h2
  have hpre : (create_structure fs base pre).2.2 = none := by rw [h1]
  constructor
  · have happ := cs_append_ok fs base pre (.cons name (.dict entries) rest) hpre
    rw [h1] at happ
    rw [happ]
    rw [show ((fs1, evs, (none : Option FSError)).1) = fs1 from rfl]
    rw [cs_dict_err hmk]
    simp
  · have happ := cs_append_ok fs base pre (.cons name (.list names) rest) hpre
    rw [h1] at happ
    rw [happ]
    rw [show ((fs1, evs, (none : Option FSError)).1) = fs1 from rfl]
    rw [cs_list_err hmk]
    simp

theorem claim_C4_witness :
    create_structure (emptyRoot []) []
        (PyDict.append (.cons "x" .none .nil) (.cons "x" (dictOf []) .nil))
      = ([(["x"], .file ""), ([], .dir)], [.mkFile ["x"]], some .fileExists)
    ∧ create_structure (emptyRoot []) []
        (PyDict.append (.cons "x" .none .nil) (.cons "x" (.list ["y"]) .nil))
      = ([(["x"], .file ""), ([], .dir)], [.mkFile ["x"]], some .fileExists) :=
  claim_C4 (emptyRoot []) [(["x"], .file ""), ([], .dir)] [] (.cons "x" .none .nil)
    [.mkFile ["x"]] "x" "" (PyDict.ofList []) ["y"] .nil (by rfl) (by decide)

/-- C5: the traversal is depth-first pre-order and deterministic (the
walk is a pure function of its input): for a directory node — dict- or
list-valued — whose `mkdir` succeeds, the notice list starts with that
directory's own creation notice, immediately followed by the notices of
all of its declared children in declared order, before any later
sibling's notice; and every child notice names a path strictly below
the directory. -/
theorem claim_C5 (fs fs1 : FS) (base : FsPath) (name : String)
    (entries rest : PyDict) (names : List String) (rest2 : PyDict)
    (hd : mkdir fs (base ++ [name]) = .ok fs1) :
    (∃ tail,
      (create_structure fs base (.cons name (.dict entries) rest)).2.1
        = .mkDir (base ++ [name])
            :: ((create_structure fs1 (base ++ [name]) entries).2.1 ++ tail)
      ∧ ∀ ev ∈ (create_structure fs1 (base ++ [name]) entries).2.1,
          ∃ suf, suf ≠ [] ∧ ev.path = (base ++ [name]) ++ suf)
    ∧ (∃ tail,
      (create_structure fs base (.cons name (.list names) rest2)).2.1
        = .mkDir (base ++ [name])
            :: ((touchFiles fs1 (base ++ [name]) names).2.1 ++ tail)
      ∧ ∀ ev ∈ (touchFiles fs1 (base ++ [name]) names).2.1,
          ∃ f, f ∈ names ∧ ev.path = (base ++ [name]) ++ [f]) := by
  constructor
  · cases hc : (create_structure fs1 (base ++ [name]) entries).2.2 with
    | some e =>
      refine ⟨[], ?_, cs_events_below _ _ _⟩
      rw [cs_dict_child_err hd hc]
      simp
    | none =>
      refine ⟨(create_structure (create_structure fs1 (base ++ [name]) entries).1
        base rest).2.1, ?_, cs_events_below _ _ _⟩
      rw [cs_dict_ok hd hc]
  · cases hc : (touchFiles fs1 (base ++ [name]) names).2.2 with
    | some e =>
      refine ⟨[], ?_, ?_⟩
      · rw [cs_list_files_err hd hc]
        simp
      · intro ev hev
        obtain ⟨f, hf, rfl⟩ := touchFiles_events ev hev
        exact ⟨f, hf, rfl⟩
    | none =>
      refine ⟨(create_structure (touchFiles fs1 (base ++ [name]) names).1
        base rest2).2.1, ?_, ?_⟩
      · rw [cs_list_ok hd hc]
      · intro ev hev
        obtain ⟨f, hf, rfl⟩ := touchFiles_events ev hev
        exact ⟨f, hf, rfl⟩

theorem claim_C5_witness :
    (∃ tail,
      (create_structure (emptyRoot []) []
          (.cons "d" (.dict (.cons "x.txt" .none .nil)) .nil)).2.1
        = .mkDir ["d"]
            :: ((create_structure [(["d"], Entry.dir), ([], Entry.dir)] ["d"]
                (.cons "x.txt" .none .nil)).2.1 ++ tail)
      ∧ ∀ ev ∈ (create_structure [(["d"], Entry.dir), ([], Entry.dir)] ["d"]
            (.cons "x.txt" .none .nil)).2.1,
          ∃ suf, suf ≠ [] ∧ ev.path = ["d"] ++ suf)
    ∧ (∃ tail,
      (create_structure (emptyRoot []) [] (.cons "d" (.list ["y.txt"]) .nil)).2.1
        = .mkDir ["d"]
            :: ((touchFiles [(["d"], Entry.dir), ([], Entry.dir)] ["d"] ["y.txt"]).2.1 ++ tail)
      ∧ ∀ ev ∈ (touchFiles [(["d"], Entry.dir), ([], Entry.dir)] ["d"] ["y.txt"]).2.1,
          ∃ f, f ∈ ["y.txt"] ∧ ev.path = ["d"] ++ [f]) :=
  claim_C5 (emptyRoot []) [(["d"], Entry.dir), ([], Entry.dir)] [] "d"
    (.cons "x.txt" .none .nil) .nil ["y.txt"] .nil (by rfl)

/-- C6 counterexample: running the program against a root already
holding the fully built tree leaves the filesystem unchanged — zero
directories or files are created — yet the standard output holds more
than one line, so it is not "exactly one progress line per directory or
file created" followed by one completion line. -/
theorem claim_C6_counterexample :
    (runProgram (create_structure (emptyRoot []) [] «structure»).1 []).1
      = (create_structure (emptyRoot []) [] «structure»).1
    ∧ 1 < (runProgram (create_structure (emptyRoot []) [] «structure»).1 []).2.1.length :=
  ⟨by decide, by decide⟩

/-- C6 (amended): the program's standard output consists of exactly one
progress line per `mkdir`/`touch` operation performed (a line is printed
even when the entry already existed and nothing was newly created; on a
root containing none of the tree's paths this is one line per entry
created), each line of the form "Created {directory|file}: {path}",
followed on full success by the single completion message; no other
output is produced. -/
theorem claim_C6 (fs : FS) (cwd : FsPath)
    (h : (runProgram fs cwd).2.2 = none) :
    (runProgram fs cwd).2.1
      = ((create_structure fs cwd «structure»).2.1).map Event.render ++ [completionMsg]
    ∧ ∀ line ∈ (runProgram fs cwd).2.1,
        line = completionMsg
        ∨ ∃ p, line = "Created directory: " ++ pathStr p
            ∨ line = "Created file: " ++ pathStr p := by
  cases hx : (create_structure fs cwd «structure»).2.2 with
  | some e =>
    exfalso
    simp only [runProgram, runScript, hx] at h
    exact Option.noConfusion h
  | none =>
    have heq : (runProgram fs cwd).2.1
        = ((create_structure fs cwd «structure»).2.1).map Event.render
          ++ [completionMsg] := by
      simp only [runProgram, runScript, hx]
    refine ⟨heq, ?_⟩
    intro line hline
    rw [heq] at hline
    rcases List.mem_append.mp hline with hm | hm
    · obtain ⟨ev, _, rfl⟩ := List.mem_map.mp hm
      cases ev with
      | mkDir p => exact .inr ⟨p, .inl rfl⟩
      | mkFile p => exact .inr ⟨p, .inr rfl⟩
    · rcases List.mem_singleton.mp hm with rfl
      exact .inl rfl

theorem claim_C6_witness :
    (runProgram (emptyRoot []) []).2.1
      = ((create_structure (emptyRoot []) [] «structure»).2.1).map Event.render
        ++ [completionMsg] :=
  (claim_C6 (emptyRoot []) [] (by decide)).1

/-- C7: for the description `a ↦ (b ↦ [c.txt])` run against an empty
target root, one run succeeds; afterwards directory `a` exists,
directory `a/b` exists, file `a/b/c.txt` exists with empty (size-zero)
content, and the output is exactly three creation lines followed by the
one completion line. -/
theorem claim_C7 (cwd : FsPath) :
    (runScript (.cons "a" (dictOf [("b", .list ["c.txt"])]) .nil) (emptyRoot cwd) cwd).2.2
      = none
    ∧ FS.find (runScript (.cons "a" (dictOf [("b", .list ["c.txt"])]) .nil)
        (emptyRoot cwd) cwd).1 (cwd ++ ["a"]) = some .dir
    ∧ FS.find (runScript (.cons "a" (dictOf [("b", .list ["c.txt"])]) .nil)
        (emptyRoot cwd) cwd).1 (cwd ++ ["a", "b"]) = some .dir
    ∧ FS.find (runScript (.cons "a" (dictOf [("b", .list ["c.txt"])]) .nil)
        (emptyRoot cwd) cwd).1 (cwd ++ ["a", "b", "c.txt"]) = some (.file "")
    ∧ (runScript (.cons "a" (dictOf [("b", .list ["c.txt"])]) .nil)
        (emptyRoot cwd) cwd).2.1
      = ["Created directory: " ++ pathStr (cwd ++ ["a"]),
         "Created directory: " ++ pathStr (cwd ++ ["a", "b"]),
         "Created file: " ++ pathStr (cwd ++ ["a", "b", "c.txt"]),
         completionMsg] := by
  have hrun : create_structure (emptyRoot cwd) cwd
      (.cons "a" (dictOf [("b", .list ["c.txt"])]) .nil)
      = ([(cwd ++ ["a", "b", "c.txt"], .file ""), (cwd ++ ["a", "b"], .dir),
          (cwd ++ ["a"], .dir), (cwd, .dir)],
         [.mkDir (cwd ++ ["a"]), .mkDir (cwd ++ ["a", "b"]),
          .mkFile (cwd ++ ["a", "b", "c.txt"])],
         none) := by
    simp [create_structure, touchFiles, mkdir, touch, FS.find, emptyRoot, dictOf,
      PyDict.ofList]
  refine ⟨?_, ?_, ?_, ?_, ?_⟩ <;>
    simp [runScript, hrun, FS.find, Event.render]

end Gymgee
